import Mathlib

/-!
Verification of the news extraction-and-persistence pipeline
(`NewsAnalyzer.py`): provider call retry policy, response normalization,
and the per-ticker deduplicated store.  Python floats are modelled as
rationals; JSON values as an inductive type; exceptions as `Except`.
-/

set_option maxRecDepth 8192

/-- JSON values as produced by `json.loads`.  Numbers are modelled as
rationals (Python floats idealized). -/
inductive Json : Type where
  | null : Json
  | bool : Bool → Json
  | num : ℚ → Json
  | str : String → Json
  | arr : List Json → Json
  | obj : List (String × Json) → Json
  deriving Repr

mutual

def Json.beq : Json → Json → Bool
  | .null, .null => true
  | .bool a, .bool b => a == b
  | .num a, .num b => a == b
  | .str a, .str b => a == b
  | .arr a, .arr b => Json.beqList a b
  | .obj a, .obj b => Json.beqObj a b
  | _, _ => false

def Json.beqList : List Json → List Json → Bool
  | [], [] => true
  | x :: xs, y :: ys => Json.beq x y && Json.beqList xs ys
  | _, _ => false

def Json.beqObj : List (String × Json) → List (String × Json) → Bool
  | [], [] => true
  | (k, v) :: xs, (k2, v2) :: ys =>
      k == k2 && Json.beq v v2 && Json.beqObj xs ys
  | _, _ => false

end

instance : BEq Json := ⟨Json.beq⟩

def Json.beq_def (a b : Json) : (a == b) = Json.beq a b := rfl

mutual

def Json.eq_of_beq : ∀ {a b : Json}, Json.beq a b = true → a = b
  | .null, .null, _ => rfl
  | .bool a, .bool b, h => by
      simp only [Json.beq, beq_iff_eq] at h; rw [h]
  | .num a, .num b, h => by
      simp only [Json.beq, beq_iff_eq] at h; rw [h]
  | .str a, .str b, h => by
      simp only [Json.beq, beq_iff_eq] at h; rw [h]
  | .arr a, .arr b, h => by
      rw [Json.eqList_of_beq (a := a) (b := b) h]
  | .obj a, .obj b, h => by
      rw [Json.eqObj_of_beq (a := a) (b := b) h]

def Json.eqList_of_beq : ∀ {a b : List Json}, Json.beqList a b = true → a = b
  | [], [], _ => rfl
  | x :: xs, y :: ys, h => by
      simp only [Json.beqList, Bool.and_eq_true] at h
      rw [Json.eq_of_beq h.1, Json.eqList_of_beq h.2]

def Json.eqObj_of_beq :
    ∀ {a b : List (String × Json)}, Json.beqObj a b = true → a = b
  | [], [], _ => rfl
  | (k, v) :: xs, (k2, v2) :: ys, h => by
      simp only [Json.beqObj, Bool.and_eq_true, beq_iff_eq] at h
      rw [h.1.1, Json.eq_of_beq h.1.2, Json.eqObj_of_beq h.2]

end

mutual

def Json.beq_refl : ∀ (a : Json), Json.beq a a = true
  | .null => rfl
  | .bool a => by simp [Json.beq]
  | .num a => by simp [Json.beq]
  | .str a => by simp [Json.beq]
  | .arr a => Json.beqList_refl a
  | .obj a => Json.beqObj_refl a

def Json.beqList_refl : ∀ (a : List Json), Json.beqList a a = true
  | [] => rfl
  | x :: xs => by
      simp only [Json.beqList, Bool.and_eq_true]
      exact ⟨Json.beq_refl x, Json.beqList_refl xs⟩

def Json.beqObj_refl : ∀ (a : List (String × Json)), Json.beqObj a a = true
  | [] => rfl
  | (k, v) :: xs => by
      show (k == k && Json.beq v v && Json.beqObj xs xs) = true
      rw [beq_self_eq_true, Json.beq_refl v, Json.beqObj_refl xs]
      rfl

end

instance : LawfulBEq Json where
  eq_of_beq := Json.eq_of_beq
  rfl := Json.beq_refl _

instance : DecidableEq Json := fun a b =>
  decidable_of_iff (Json.beq a b = true) ⟨Json.eq_of_beq, fun h => h ▸ Json.beq_refl a⟩

/-! ### `json.loads`: a recursive-descent JSON parser (fuel-bounded) -/

/-- The whitespace characters the JSON grammar allows between tokens. -/
def skipWs (cs : List Char) : List Char :=
  cs.dropWhile (fun c => c = ' ' || c = '\t' || c = '\n' || c = '\r')

def hexVal (c : Char) : Option Nat :=
  if c.isDigit then some (c.toNat - 48)
  else if 'a' ≤ c ∧ c ≤ 'f' then some (c.toNat - 87)
  else if 'A' ≤ c ∧ c ≤ 'F' then some (c.toNat - 55)
  else none

def escChar (c : Char) : Option Char :=
  if c = '"' then some '"'
  else if c = '\\' then some '\\'
  else if c = '/' then some '/'
  else if c = 'b' then some (Char.ofNat 8)
  else if c = 'f' then some (Char.ofNat 12)
  else if c = 'n' then some '\n'
  else if c = 'r' then some '\r'
  else if c = 't' then some '\t'
  else none

/-- Body of a JSON string literal, after the opening quote. -/
def parseJString : Nat → List Char → List Char → Option (String × List Char)
  | 0, _, _ => none
  | _ + 1, [], _ => none
  | f + 1, c :: rest, acc =>
    if c = '"' then some (String.mk acc.reverse, rest)
    else if c = '\\' then
      match rest with
      | 'u' :: a :: b :: c2 :: d :: rest2 => do
          let ha ← hexVal a
          let hb ← hexVal b
          let hc ← hexVal c2
          let hd ← hexVal d
          parseJString f rest2 (Char.ofNat (((ha * 16 + hb) * 16 + hc) * 16 + hd) :: acc)
      | e :: rest2 => do
          let ec ← escChar e
          parseJString f rest2 (ec :: acc)
      | [] => none
    else parseJString f rest (c :: acc)

def digitsToNat (ds : List Char) : Nat :=
  ds.foldl (fun n c => n * 10 + (c.toNat - 48)) 0

/-- Optional fractional part of a decimal number: the digits after the
dot (`[]` when there is no dot). -/
def parseFracDigits : List Char → Option (List Char × List Char)
  | '.' :: rest =>
      let p := rest.span Char.isDigit
      if p.1.isEmpty then none else some (p.1, p.2)
  | cs => some ([], cs)

/-- Optional exponent part of a decimal number (`0` when there is none). -/
def parseExpVal : List Char → Option (ℤ × List Char)
  | c :: rest =>
      if c = 'e' ∨ c = 'E' then
        let sp : Bool × List Char :=
          match rest with
          | '+' :: r => (false, r)
          | '-' :: r => (true, r)
          | r => (false, r)
        let p := sp.2.span Char.isDigit
        if p.1.isEmpty then none
        else some (if sp.1 then -(digitsToNat p.1 : ℤ) else (digitsToNat p.1 : ℤ), p.2)
      else some (0, c :: rest)
  | [] => some (0, [])

/-- Build `sign * mant * 10^e / 10^fracLen` as a rational, using only
integer arithmetic and `Rat.divInt`. -/
def decimalToRat (neg : Bool) (mant : Nat) (fracLen : Nat) (e : ℤ) : ℚ :=
  let up : Nat := if 0 ≤ e then e.toNat else 0
  let down : Nat := if 0 ≤ e then 0 else (-e).toNat
  let n : ℤ := (mant * 10 ^ up : Nat)
  Rat.divInt (if neg then -n else n) ((10 ^ (fracLen + down) : Nat) : ℤ)

/-- A JSON number: optional minus, integer part without leading zeros,
optional fraction, optional exponent. -/
def parseNumber (cs : List Char) : Option (ℚ × List Char) :=
  let sp : Bool × List Char :=
    match cs with
    | '-' :: rest => (true, rest)
    | _ => (false, cs)
  let dp := sp.2.span Char.isDigit
  if dp.1.isEmpty then none
  else if 1 < dp.1.length ∧ dp.1.head? = some '0' then none
  else do
    let fv ← parseFracDigits dp.2
    let ev ← parseExpVal fv.2
    some (decimalToRat sp.1 (digitsToNat (dp.1 ++ fv.1)) fv.1.length ev.1, ev.2)

mutual

def parseValue : Nat → List Char → Option (Json × List Char)
  | 0, _ => none
  | f + 1, cs =>
    match skipWs cs with
    | [] => none
    | '"' :: rest => (parseJString f rest []).map (fun p => (Json.str p.1, p.2))
    | '{' :: rest =>
        (match skipWs rest with
         | '}' :: rest2 => some (Json.obj [], rest2)
         | rest2 => (parseObjItems f rest2).map (fun p => (Json.obj p.1, p.2)))
    | '[' :: rest =>
        (match skipWs rest with
         | ']' :: rest2 => some (Json.arr [], rest2)
         | rest2 => (parseArrItems f rest2).map (fun p => (Json.arr p.1, p.2)))
    | 't' :: 'r' :: 'u' :: 'e' :: rest => some (Json.bool true, rest)
    | 'f' :: 'a' :: 'l' :: 's' :: 'e' :: rest => some (Json.bool false, rest)
    | 'n' :: 'u' :: 'l' :: 'l' :: rest => some (Json.null, rest)
    | cs2 => (parseNumber cs2).map (fun p => (Json.num p.1, p.2))

def parseArrItems : Nat → List Char → Option (List Json × List Char)
  | 0, _ => none
  | f + 1, cs => do
      let vr ← parseValue f cs
      match skipWs vr.2 with
      | ',' :: r2 => do
          let tl ← parseArrItems f r2
          some (vr.1 :: tl.1, tl.2)
      | ']' :: r2 => some ([vr.1], r2)
      | _ => none

def parseObjItems : Nat → List Char → Option (List (String × Json) × List Char)
  | 0, _ => none
  | f + 1, cs =>
      match skipWs cs with
      | '"' :: rest => do
          let kr ← parseJString f rest []
          match skipWs kr.2 with
          | ':' :: r2 => do
              let vr ← parseValue f r2
              match skipWs vr.2 with
              | ',' :: r4 => do
                  let tl ← parseObjItems f r4
                  some ((kr.1, vr.1) :: tl.1, tl.2)
              | '}' :: r4 => some ([(kr.1, vr.1)], r4)
              | _ => none
          | _ => none
      | _ => none

end

/-- `json.loads`: parse a whole string as one JSON document; trailing
non-whitespace is a parse error.  `none` models `json.JSONDecodeError`. -/
def json_loads (s : String) : Option Json :=
  match parseValue (4 * s.toList.length + 16) s.toList with
  | some (v, rest) => if (skipWs rest).isEmpty then some v else none
  | none => none

/-- Python `dict.get` on a JSON object: later duplicate keys overwrite
earlier ones, as in `json.loads`. -/
def Json.getField (fields : List (String × Json)) (k : String) : Option Json :=
  (fields.reverse.find? (fun p => p.1 == k)).map (·.2)

/-! ### Python string and coercion primitives -/

/-- The whitespace characters `str.strip()` removes. -/
def pyWsChar (c : Char) : Bool :=
  c = ' ' || c = '\t' || c = '\n' || c = '\r' || c = '\u000B' || c = '\u000C'

/-- Python `str.strip()`: drop leading and trailing whitespace. -/
def pyStrip (s : String) : String :=
  String.mk (((s.toList.dropWhile pyWsChar).reverse.dropWhile pyWsChar).reverse)

/-- Python slicing `s[a:-b]`: the characters from index `a` up to `b`
before the end (empty when the ranges cross). -/
def pySliceTail (s : String) (a b : Nat) : String :=
  String.mk (((s.toList.drop a).reverse.drop b).reverse)

/-- Python `str.startswith`. -/
def pyStartsWith (s pre : String) : Bool :=
  pre.toList.isPrefixOf s.toList

/-- Python `float()` applied to a string: optional surrounding whitespace
and sign, then a decimal literal with optional fraction and exponent.
(`inf`/`nan` spellings and digit underscores are not modelled.) -/
def pyFloatOfString (s : String) : Option ℚ :=
  let cs := ((s.toList.dropWhile pyWsChar).reverse.dropWhile pyWsChar).reverse
  let sp : Bool × List Char :=
    match cs with
    | '-' :: r => (true, r)
    | '+' :: r => (false, r)
    | r => (false, r)
  let ip := sp.2.span Char.isDigit
  let dotted : Bool × List Char :=
    match ip.2 with
    | '.' :: rest => (true, rest)
    | _ => (false, ip.2)
  let fp := if dotted.1 then dotted.2.span Char.isDigit else ([], dotted.2)
  if (ip.1 ++ fp.1).isEmpty then none
  else
    match parseExpVal fp.2 with
    | none => none
    | some (e, rest) =>
        if rest.isEmpty then
          some (decimalToRat sp.1 (digitsToNat (ip.1 ++ fp.1)) fp.1.length e)
        else none

/-- Python `float()` on a JSON-decoded value: numbers pass through,
booleans become 0/1, numeric strings are parsed, anything else raises
(`ValueError` for non-numeric strings, `TypeError` otherwise). -/
def pyFloat : Json → Except String ℚ
  | .num q => .ok q
  | .bool b => .ok (if b then 1 else 0)
  | .str s =>
      match pyFloatOfString s with
      | some q => .ok q
      | none => .error "ValueError: could not convert string to float"
  | _ => .error "TypeError: float() argument must be a string or a real number"

/-! ### The Response Normalizer: `LLMNewsParser.analyze_news_with_llm`
(lines 138-180), taking the raw text returned by `call_llm` (or `None`)
as input. -/

/-- The validated record produced by `analyze_news_with_llm`.  The
`companies`/`tickers`/`sentiment`/`key_themes` fields keep whatever JSON
value the backend supplied (the code does not coerce them); the two
score fields are coerced through `float()`. -/
structure AnalysisResult where
  companies : Json
  tickers : Json
  sentiment : Json
  sentiment_score : ℚ
  key_themes : Json
  confidence : ℚ
  deriving Repr, DecidableEq

/-- The zero-value result returned for a null/empty or unparsable
response (lines 141-148 and 173-180). -/
def zeroAnalysis : AnalysisResult :=
  { companies := .arr []
    tickers := .arr []
    sentiment := .str "neutral"
    sentiment_score := 0
    key_themes := .arr []
    confidence := 0 }

/-- The response-cleaning step (lines 152-156): strip whitespace, then
remove a leading ```` ```json ```` or ```` ``` ```` fence marker together
with the final three characters. -/
def cleanResponse (response : String) : String :=
  let cleaned := pyStrip response
  if pyStartsWith cleaned "```json" then pySliceTail cleaned 7 3
  else if pyStartsWith cleaned "```" then pySliceTail cleaned 3 3
  else cleaned

/-- `analyze_news_with_llm`, from the LLM response on: `none` models a
`None` response, `.error` models an uncaught exception (`json.loads`
failures are caught and give `zeroAnalysis`; non-dict parses and
`float()` failures are not caught). -/
def analyze_news_with_llm (response : Option String) : Except String AnalysisResult :=
  match response with
  | none => .ok zeroAnalysis
  | some r =>
    if r = "" then .ok zeroAnalysis
    else
      match json_loads (cleanResponse r) with
      | none => .ok zeroAnalysis
      | some (.obj fields) => do
          let score ← pyFloat ((Json.getField fields "sentiment_score").getD (.num 0))
          let conf ← pyFloat ((Json.getField fields "confidence").getD (.num (Rat.divInt 1 2)))
          .ok { companies := (Json.getField fields "companies").getD (.arr [])
                tickers := (Json.getField fields "tickers").getD (.arr [])
                sentiment := (Json.getField fields "sentiment").getD (.str "neutral")
                sentiment_score := score
                key_themes := (Json.getField fields "key_themes").getD (.arr [])
                confidence := conf }
      | some _ => .error "AttributeError: object has no attribute get"

/-! ### The Resilient Invoker: `LLMNewsParser.call_llm` (lines 60-109).

The whole body of one loop iteration (payload construction, HTTP post,
response-path extraction) is abstracted as a provider oracle
`provider : ℕ → Option String`: `some text` when attempt `i` succeeds,
`none` when it raises any exception (the `except Exception` branch).
The model returns the result together with the number of provider calls
made and the list of back-off sleep durations, in order. -/

def call_llm_go (provider : ℕ → Option String) (max_retries : ℕ) :
    ℕ → ℕ → Option String × ℕ × List ℕ
  | _, 0 => (none, 0, [])
  | attempt, r + 1 =>
    match provider attempt with
    | some s => (some s, 1, [])
    | none =>
      if attempt < max_retries - 1 then
        let rec' := call_llm_go provider max_retries (attempt + 1) r
        (rec'.1, rec'.2.1 + 1, 2 ^ attempt :: rec'.2.2)
      else (none, 1, [])

/-- `call_llm`: run `for attempt in range(max_retries)`, sleeping
`2 ** attempt` after each failure except the last, and returning `None`
once all attempts failed. -/
def call_llm (provider : ℕ → Option String) (max_retries : ℕ := 3) :
    Option String × ℕ × List ℕ :=
  call_llm_go provider max_retries 0 max_retries

/-! ### The Ticker Store and fan-out: `parse_csv_file` (lines 227-269),
`load_existing_data` (182-191), `save_ticker_data` (193-197).

The `company_news` directory is modelled as an association list from the
ticker value (as produced by the backend, i.e. a JSON value) to the
decoded contents of that ticker's file. -/

/-- One element of a ticker's JSON file: the dict built at lines 238-250. -/
structure NewsEntry where
  timestamp : String
  headline : String
  description : String
  company_name : Json
  ticker : Json
  sentiment : Json
  sentiment_score : ℚ
  key_themes : Json
  confidence : ℚ
  full_text : String
  processed_date : String
  deriving Repr, DecidableEq

/-- The news entry built for one (row, ticker) pair:
`full_text = f"{headline} {description}".strip()`. -/
def mkNewsEntry (time_str headline description : String) (analysis : AnalysisResult)
    (company_name ticker : Json) (now : String) : NewsEntry :=
  { timestamp := time_str
    headline := headline
    description := description
    company_name := company_name
    ticker := ticker
    sentiment := analysis.sentiment
    sentiment_score := analysis.sentiment_score
    key_themes := analysis.key_themes
    confidence := analysis.confidence
    full_text := pyStrip (headline ++ " " ++ description)
    processed_date := now }

abbrev TickerStore := List (Json × List NewsEntry)

/-- `load_existing_data`: the decoded contents of the ticker's file, or
`[]` when the file does not exist (or is unreadable). -/
def load_existing_data (store : TickerStore) (ticker : Json) : List NewsEntry :=
  ((store.find? (fun p => p.1 == ticker)).map (fun p => p.2)).getD []

/-- `save_ticker_data`: overwrite the ticker's file with `data`. -/
def save_ticker_data (store : TickerStore) (ticker : Json) (data : List NewsEntry) :
    TickerStore :=
  (ticker, data) :: store.filter (fun p => !(p.1 == ticker))

/-- The duplicate scan of lines 255-260: some existing entry has this
row's headline and timestamp. -/
def hasDuplicate (data : List NewsEntry) (headline time_str : String) : Bool :=
  data.any (fun e => e.headline == headline && e.timestamp == time_str)

/-- Lines 252-264: load the ticker's collection, append the entry and
rewrite the file only when the row's (headline, timestamp) key is not
already present. -/
def append_if_new (store : TickerStore) (ticker : Json) (headline time_str : String)
    (entry : NewsEntry) : TickerStore :=
  let existing := load_existing_data store ticker
  if hasDuplicate existing headline time_str then store
  else save_ticker_data store ticker (existing ++ [entry])

/-- Python `len()` on a JSON-decoded value. -/
def pyLen : Json → Except String ℕ
  | .arr xs => .ok xs.length
  | .str s => .ok s.length
  | .obj fs => .ok fs.length
  | _ => .error "TypeError: object has no len()"

/-- Python subscription `x[i]` on a JSON-decoded value. -/
def pyIndex : Json → ℕ → Except String Json
  | .arr xs, i => if h : i < xs.length then .ok (xs.get ⟨i, h⟩) else .error "IndexError"
  | .str s, i =>
      if h : i < s.toList.length then .ok (.str (String.mk [s.toList.get ⟨i, h⟩]))
      else .error "IndexError"
  | _, _ => .error "TypeError: object is not subscriptable"

/-- The test `ticker in ["UNKNOWN", ""]` of line 232: a JSON value
equals one of those Python strings exactly when it is that string. -/
def isSkipTicker : Json → Bool
  | .str s => s == "UNKNOWN" || s == ""
  | _ => false

/-- The per-ticker loop of lines 231-265: `for i, ticker in
enumerate(analysis["tickers"])`, skipping `"UNKNOWN"` and `""`, choosing
the index-aligned company name (or `"Unknown"` when out of range) and
appending the entry if its dedup key is new. -/
def fanOut (headline time_str description now : String) (analysis : AnalysisResult) :
    ℕ → List Json → TickerStore → Except String TickerStore
  | _, [], store => .ok store
  | i, ticker :: rest, store =>
    if isSkipTicker ticker then
      fanOut headline time_str description now analysis (i + 1) rest store
    else do
      let clen ← pyLen analysis.companies
      let company_name ←
        if i < clen then pyIndex analysis.companies i else .ok (.str "Unknown")
      let entry := mkNewsEntry time_str headline description analysis company_name ticker now
      fanOut headline time_str description now analysis (i + 1) rest
        (append_if_new store ticker headline time_str entry)

/-- Python iteration over the value bound to `analysis["tickers"]`:
lists yield their elements, strings their characters, dicts their keys;
anything else raises `TypeError`. -/
def pyIter : Json → Except String (List Json)
  | .arr xs => .ok xs
  | .str s => .ok (s.toList.map (fun c => .str (String.mk [c])))
  | .obj fs => .ok (fs.map (fun p => .str p.1))
  | _ => .error "TypeError: object is not iterable"

/-- Lines 227-269 for one row that reached analysis: when
`confidence > 0.3` count it successful and fan out over the tickers,
otherwise leave the store untouched; either way the row counts as
processed.  The result is `(store, processed_count, successful_analyses)`. -/
def processRow (headline time_str description now : String) (analysis : AnalysisResult)
    (store : TickerStore) (processed successful : ℕ) :
    Except String (TickerStore × ℕ × ℕ) :=
  if analysis.confidence > Rat.divInt 3 10 then do
    let tickers ← pyIter analysis.tickers
    let store' ← fanOut headline time_str description now analysis 0 tickers store
    .ok (store', processed + 1, successful + 1)
  else .ok (store, processed + 1, successful)

/-! ### Construction: `LLMNewsParser.__init__` / `setup_llm_config`
(lines 16-58). -/

/-- The provider-specific attributes `setup_llm_config` assigns.
`model_name` is `none` for the `huggingface` branch, which never sets
one. -/
structure LLMConfig where
  api_url : String
  model_name : Option String
  headers : List (String × String)
  deriving Repr, DecidableEq

/-- Python `f"{x}"` for an optional string: `None` renders as `"None"`. -/
def pyShowOpt (x : Option String) : String := x.getD "None"

/-- `setup_llm_config`: a four-way `if/elif` chain with no `else` — an
unrecognized provider assigns nothing (`none`) and raises nothing. -/
def setup_llm_config (api_key : Option String) (provider : String) : Option LLMConfig :=
  if provider = "openai" then
    some { api_url := "https://api.openai.com/v1/chat/completions"
           model_name := some "gpt-3.5-turbo"
           headers := [("Authorization", "Bearer " ++ pyShowOpt api_key),
                       ("Content-Type", "application/json")] }
  else if provider = "anthropic" then
    some { api_url := "https://api.anthropic.com/v1/messages"
           model_name := some "claude-3-haiku-20240307"
           headers := [("x-api-key", pyShowOpt api_key),
                       ("Content-Type", "application/json"),
                       ("anthropic-version", "2023-06-01")] }
  else if provider = "ollama" then
    some { api_url := "http://localhost:11434/api/generate"
           model_name := some "llama2"
           headers := [("Content-Type", "application/json")] }
  else if provider = "huggingface" then
    some { api_url := "https://api-inference.huggingface.co/models/microsoft/DialoGPT-medium"
           model_name := none
           headers := [("Authorization", "Bearer " ++ pyShowOpt api_key),
                       ("Content-Type", "application/json")] }
  else none

/-- Python `str.lower()` (ASCII case folding). -/
def pyLower (s : String) : String := String.mk (s.toList.map Char.toLower)

/-- The state `__init__` builds. -/
structure LLMNewsParser where
  api_key : Option String
  model_provider : String
  output_dir : String
  config : Option LLMConfig
  deriving Repr, DecidableEq

/-- `LLMNewsParser.__init__`: lower-case the provider, fix the output
directory, run `setup_llm_config`.  No branch raises, so construction
always succeeds (`Except.error` would model an uncaught exception). -/
def LLMNewsParser.init (api_key : Option String) (model_provider : String) :
    Except String LLMNewsParser :=
  .ok { api_key := api_key
        model_provider := pyLower model_provider
        output_dir := "company_news"
        config := setup_llm_config api_key (pyLower model_provider) }

/-! ### Persistence call: `save_ticker_data`'s file name and `json.dump`
arguments (lines 193-197). -/

/-- Python `os.path.join(a, b)` on POSIX, for the two-argument calls the
code makes. -/
def os_path_join (a b : String) : String :=
  if pyStartsWith b "/" then b else a ++ "/" ++ b

/-- The arguments of the `json.dump` call that persists one ticker's
collection. -/
structure SaveFileCall where
  filename : String
  indent : Option ℕ
  ensure_ascii : Bool
  content : List NewsEntry
  deriving Repr, DecidableEq

/-- The write `save_ticker_data` performs for a (string) ticker:
`open(os.path.join(self.output_dir, f"{ticker}.json"), 'w')` then
`json.dump(data, f, indent=2, ensure_ascii=False)`. -/
def save_ticker_file_call (ticker : String) (data : List NewsEntry) : SaveFileCall :=
  { filename := os_path_join "company_news" (ticker ++ ".json")
    indent := some 2
    ensure_ascii := false
    content := data }

/-- Python `str.upper()` (ASCII case folding). -/
def pyUpper (s : String) : String := String.mk (s.toList.map Char.toUpper)

/-! ### Dedup-key invariants (the properties claimed of the store) -/

/-- The number of entries of a collection carrying a given
(headline, timestamp) dedup key. -/
def countKey (data : List NewsEntry) (headline time_str : String) : ℕ :=
  (data.filter (fun e => e.headline == headline && e.timestamp == time_str)).length

/-- No two entries of one collection share a dedup key. -/
def NoDupKey (data : List NewsEntry) : Prop :=
  ∀ h t, countKey data h t ≤ 1

/-- Every ticker's collection satisfies `NoDupKey`. -/
def StoreNoDup (store : TickerStore) : Prop :=
  ∀ tk, NoDupKey (load_existing_data store tk)

/-- Every entry stored under a ticker carries that ticker in its
`ticker` field. -/
def TickerInv (store : TickerStore) : Prop :=
  ∀ tk e, e ∈ load_existing_data store tk → e.ticker = tk

/-- A concrete entry used to exercise the store operations. -/
def sampleEntry : NewsEntry :=
  { timestamp := "2024-01-01"
    headline := "Apple beats estimates"
    description := "Strong quarter"
    company_name := .str "Apple Inc."
    ticker := .str "AAPL"
    sentiment := .str "positive"
    sentiment_score := Rat.divInt 1 2
    key_themes := .arr [.str "earnings"]
    confidence := Rat.divInt 9 10
    full_text := "Apple beats estimates Strong quarter"
    processed_date := "now" }

/-- A concrete analysis used to exercise the row fan-out. -/
def sampleAnalysis : AnalysisResult :=
  { companies := .arr [.str "Apple Inc."]
    tickers := .arr [.str "AAPL"]
    sentiment := .str "positive"
    sentiment_score := Rat.divInt 1 2
    key_themes := .arr [.str "earnings"]
    confidence := Rat.divInt 9 10 }

/-- A concrete analysis at the confidence threshold. -/
def sampleLowAnalysis : AnalysisResult :=
  { companies := .arr [.str "Apple Inc."]
    tickers := .arr [.str "AAPL"]
    sentiment := .str "positive"
    sentiment_score := Rat.divInt 1 2
    key_themes := .arr [.str "earnings"]
    confidence := Rat.divInt 3 10 }

/-! ## Helper lemmas -/

theorem find?_filter_other (store : TickerStore) (tk tk' : Json) (hne : tk' ≠ tk) :
    (store.filter (fun p => !(p.1 == tk))).find? (fun p => p.1 == tk')
      = store.find? (fun p => p.1 == tk') := by
  induction store with
  | nil => rfl
  | cons hd tl ih =>
    by_cases hhd : hd.1 = tk
    · have h1 : (hd.1 == tk) = true := by simp [hhd]
      have h2 : (hd.1 == tk') = false := by simp [hhd]; exact fun h => (hne h.symm).elim
      simp [List.filter, List.find?, h1, h2, ih]
    · have h1 : (hd.1 == tk) = false := by simp [hhd]
      by_cases h3 : hd.1 = tk'
      · have h4 : (hd.1 == tk') = true := by simp [h3]
        simp [List.filter, List.find?, h1, h4]
      · have h4 : (hd.1 == tk') = false := by simp [h3]
        simp [List.filter, List.find?, h1, h4, ih]

theorem load_save (store : TickerStore) (tk tk' : Json) (d : List NewsEntry) :
    load_existing_data (save_ticker_data store tk d) tk'
      = if tk' = tk then d else load_existing_data store tk' := by
  unfold load_existing_data save_ticker_data
  by_cases h : tk' = tk
  · subst h
    simp [List.find?]
  · have h1 : (tk == tk') = false := by
      simp; exact fun hh => (h hh.symm).elim
    simp [List.find?, h1, find?_filter_other store tk tk' h, h]

theorem hasDuplicate_false_iff (d : List NewsEntry) (h t : String) :
    hasDuplicate d h t = false ↔ countKey d h t = 0 := by
  simp [hasDuplicate, countKey, List.length_eq_zero, List.filter_eq_nil_iff]

theorem hasDuplicate_true_count (d : List NewsEntry) (h t : String)
    (hd : hasDuplicate d h t = true) : 1 ≤ countKey d h t := by
  rcases List.any_eq_true.mp hd with ⟨e, he, hpe⟩
  have : e ∈ d.filter (fun e => e.headline == h && e.timestamp == t) :=
    List.mem_filter.mpr ⟨he, hpe⟩
  have := List.length_pos.mpr (List.ne_nil_of_mem this)
  simpa [countKey] using this

theorem countKey_append_single (d : List NewsEntry) (e : NewsEntry) (h t : String) :
    countKey (d ++ [e]) h t
      = countKey d h t + (if e.headline == h && e.timestamp == t then 1 else 0) := by
  cases hb : (e.headline == h && e.timestamp == t) with
  | true => simp [countKey, List.filter_append, List.filter, hb]
  | false => simp [countKey, List.filter_append, List.filter, hb]

theorem load_append_if_new (store : TickerStore) (tk : Json) (h t : String)
    (e : NewsEntry) (tk' : Json) :
    load_existing_data (append_if_new store tk h t e) tk'
      = if hasDuplicate (load_existing_data store tk) h t then
          load_existing_data store tk'
        else if tk' = tk then load_existing_data store tk ++ [e]
        else load_existing_data store tk' := by
  unfold append_if_new
  by_cases hd : hasDuplicate (load_existing_data store tk) h t
  · simp [hd]
  · simp only [hd, Bool.false_eq_true, if_false, ite_false]
    rw [load_save]

theorem append_if_new_countKey (store : TickerStore) (tk : Json) (h t : String)
    (e : NewsEntry) (hs : NoDupKey (load_existing_data store tk))
    (he1 : e.headline = h) (he2 : e.timestamp = t) :
    countKey (load_existing_data (append_if_new store tk h t e) tk) h t = 1 := by
  rw [load_append_if_new]
  by_cases hd : hasDuplicate (load_existing_data store tk) h t
  · simp only [hd, if_true]
    exact le_antisymm (hs h t) (hasDuplicate_true_count _ _ _ hd)
  · have h0 : countKey (load_existing_data store tk) h t = 0 :=
      (hasDuplicate_false_iff _ _ _).mp (by simpa using hd)
    simp only [hd, Bool.false_eq_true, if_false, if_pos rfl, countKey_append_single,
      h0, he1, he2, beq_self_eq_true, Bool.and_self, if_true]

theorem append_if_new_storeNoDup (store : TickerStore) (tk : Json) (h t : String)
    (e : NewsEntry) (hs : StoreNoDup store)
    (he1 : e.headline = h) (he2 : e.timestamp = t) :
    StoreNoDup (append_if_new store tk h t e) := by
  intro tk' h' t'
  rw [load_append_if_new]
  by_cases hd : hasDuplicate (load_existing_data store tk) h t
  · simp only [hd, if_true]
    exact hs tk' h' t'
  · rw [if_neg hd]
    by_cases hk : tk' = tk
    · subst hk
      rw [if_pos rfl, countKey_append_single]
      by_cases hm : (e.headline == h' && e.timestamp == t') = true
      · have hm1 : h' = h := by
          have hz := (Bool.and_eq_true _ _).mp hm
          have hz1 := eq_of_beq hz.1
          rw [← hz1, he1]
        have hm2 : t' = t := by
          have hz := (Bool.and_eq_true _ _).mp hm
          have hz2 := eq_of_beq hz.2
          rw [← hz2, he2]
        subst hm1; subst hm2
        have h0 : countKey (load_existing_data store tk') h' t' = 0 :=
          (hasDuplicate_false_iff _ _ _).mp (by simpa using hd)
        rw [h0, if_pos hm]
      · have hmf : (e.headline == h' && e.timestamp == t') = false := by
          simpa using hm
        rw [hmf]
        simp only [Bool.false_eq_true, if_false, Nat.add_zero]
        exact hs tk' h' t'
    · rw [if_neg hk]
      exact hs tk' h' t'

theorem mem_load_append_if_new (store : TickerStore) (tk0 : Json) (h t : String)
    (e0 : NewsEntry) (tk : Json) (e : NewsEntry)
    (hm : e ∈ load_existing_data (append_if_new store tk0 h t e0) tk) :
    e ∈ load_existing_data store tk ∨ (e = e0 ∧ tk = tk0) := by
  rw [load_append_if_new] at hm
  by_cases hd : hasDuplicate (load_existing_data store tk0) h t
  · simp only [hd, if_true] at hm
    exact Or.inl hm
  · rw [if_neg hd] at hm
    by_cases hk : tk = tk0
    · subst hk
      rw [if_pos rfl] at hm
      rcases List.mem_append.mp hm with hm | hm
      · exact Or.inl hm
      · exact Or.inr ⟨List.mem_singleton.mp hm, rfl⟩
    · rw [if_neg hk] at hm
      exact Or.inl hm

theorem exc_bind_ok {α β : Type} (a : α) (f : α → Except String β) :
    (Except.ok a >>= f) = f a := rfl

theorem exc_bind_err {α β : Type} (msg : String) (f : α → Except String β) :
    ((Except.error msg : Except String α) >>= f) = .error msg := rfl

theorem fanOut_mem (headline time_str description now : String)
    (analysis : AnalysisResult) :
    ∀ (ts : List Json) (i : ℕ) (store store' : TickerStore),
      fanOut headline time_str description now analysis i ts store = .ok store' →
      ∀ tk e, e ∈ load_existing_data store' tk →
        e ∈ load_existing_data store tk ∨
          (e.headline = headline ∧ e.timestamp = time_str ∧
           e.description = description ∧ e.ticker = tk ∧
           e.full_text = pyStrip (headline ++ " " ++ description)) := by
  intro ts
  induction ts with
  | nil =>
    intro i store store' hok tk e hm
    simp only [fanOut, Except.ok.injEq] at hok
    subst hok
    exact Or.inl hm
  | cons ticker rest ih =>
    intro i store store' hok tk e hm
    by_cases hskip : isSkipTicker ticker = true
    · rw [fanOut, if_pos hskip] at hok
      exact ih (i + 1) store store' hok tk e hm
    · rw [fanOut, if_neg hskip] at hok
      rcases hcl : pyLen analysis.companies with msg | clen
      · rw [hcl, exc_bind_err] at hok
        simp at hok
      · rw [hcl, exc_bind_ok] at hok
        have hok2 :
            ∃ company_name,
              fanOut headline time_str description now analysis (i + 1) rest
                (append_if_new store ticker headline time_str
                  (mkNewsEntry time_str headline description analysis company_name
                    ticker now)) = .ok store' := by
          by_cases hi : i < clen
          · rw [if_pos hi] at hok
            rcases hidx : pyIndex analysis.companies i with msg | cn
            · rw [hidx, exc_bind_err] at hok
              simp at hok
            · rw [hidx, exc_bind_ok] at hok
              exact ⟨cn, hok⟩
          · rw [if_neg hi, exc_bind_ok] at hok
            exact ⟨.str "Unknown", hok⟩
        rcases hok2 with ⟨company_name, hok2⟩
        rcases ih (i + 1) _ store' hok2 tk e hm with hin | hnew
        · rcases mem_load_append_if_new _ _ _ _ _ _ _ hin with hin2 | ⟨he, htk⟩
          · exact Or.inl hin2
          · subst he; subst htk
            exact Or.inr ⟨rfl, rfl, rfl, rfl, rfl⟩
        · exact Or.inr hnew

theorem call_llm_go_succ (provider : ℕ → Option String) (m a r : ℕ) :
    call_llm_go provider m a (r + 1)
      = match provider a with
        | some s => (some s, 1, [])
        | none =>
          if a < m - 1 then
            ((call_llm_go provider m (a + 1) r).1,
             (call_llm_go provider m (a + 1) r).2.1 + 1,
             2 ^ a :: (call_llm_go provider m (a + 1) r).2.2)
          else (none, 1, []) := rfl

theorem call_llm_go_fail (provider : ℕ → Option String) (m : ℕ)
    (hfail : ∀ i, provider i = none) :
    ∀ (r a : ℕ), a + r = m → 1 ≤ r →
      call_llm_go provider m a r
        = (none, r, (List.range' a (r - 1)).map (2 ^ ·)) := by
  intro r
  induction r with
  | zero => intro a _ h1; omega
  | succ s ihs =>
    intro a ha _
    cases s with
    | zero =>
      have hge : ¬ a < m - 1 := by omega
      rw [call_llm_go_succ, hfail a]
      simp [hge, List.range']
    | succ t =>
      have hlt : a < m - 1 := by omega
      rw [call_llm_go_succ, hfail a]
      simp only [if_pos hlt]
      rw [ihs (a + 1) (by omega) (by omega)]
      simp [List.range'_succ]

theorem pySliceTail_toList (s : String) (a b : ℕ) :
    (pySliceTail s a b).toList
      = (s.toList.drop a).take ((s.toList.drop a).length - b) := by
  show ((s.toList.drop a).reverse.drop b).reverse
      = (s.toList.drop a).take ((s.toList.drop a).length - b)
  rw [List.reverse_drop]
  simp

theorem append_if_new_of_dup (store : TickerStore) (tk : Json) (h t : String)
    (e : NewsEntry)
    (hd : hasDuplicate (load_existing_data store tk) h t = true) :
    append_if_new store tk h t e = store := by
  simp only [append_if_new, hd, if_true]

/-! ## Claim theorems -/

/-- C1: the duplicate-check-then-append operation of `parse_csv_file`
(lines 252-264) keeps the dedup-key invariant: the empty store satisfies
it, every append with an entry carrying the row's (headline, timestamp)
preserves it, and two appends with byte-identical (headline, timestamp)
for the same ticker — in one run or across runs — leave exactly one
entry with that key in the ticker's collection. -/
theorem append_if_new_idempotent_dedup :
    StoreNoDup ([] : TickerStore) ∧
    (∀ (store : TickerStore) (tk : Json) (h t : String) (e : NewsEntry),
      StoreNoDup store → e.headline = h → e.timestamp = t →
      StoreNoDup (append_if_new store tk h t e)) ∧
    (∀ (store : TickerStore) (tk : Json) (h t : String) (e e2 : NewsEntry),
      StoreNoDup store → e.headline = h → e.timestamp = t →
      e2.headline = h → e2.timestamp = t →
      countKey (load_existing_data
        (append_if_new (append_if_new store tk h t e) tk h t e2) tk) h t = 1) := by
  refine ⟨?_, ?_, ?_⟩
  · intro tk h t
    simp [load_existing_data, countKey, List.find?]
  · exact fun store tk h t e hs he1 he2 =>
      append_if_new_storeNoDup store tk h t e hs he1 he2
  · intro store tk h t e e2 hs he1 he2 hf1 hf2
    have h1 : countKey (load_existing_data (append_if_new store tk h t e) tk) h t = 1 :=
      append_if_new_countKey store tk h t e (hs tk) he1 he2
    have hd : hasDuplicate
        (load_existing_data (append_if_new store tk h t e) tk) h t = true := by
      cases hdd : hasDuplicate (load_existing_data (append_if_new store tk h t e) tk) h t with
      | true => rfl
      | false =>
        have h0 := (hasDuplicate_false_iff _ _ _).mp hdd
        rw [h0] at h1
        exact absurd h1 (by decide)
    rw [append_if_new_of_dup _ _ _ _ _ hd]
    exact h1

/-- Witness for C1: appending the same entry twice to the empty store
for ticker "AAPL" leaves exactly one entry with its dedup key. -/
theorem append_if_new_idempotent_dedup_witness :
    sampleEntry.headline = "Apple beats estimates" ∧
    sampleEntry.timestamp = "2024-01-01" ∧
    countKey (load_existing_data
      (append_if_new
        (append_if_new ([] : TickerStore) (Json.str "AAPL")
          "Apple beats estimates" "2024-01-01" sampleEntry)
        (Json.str "AAPL") "Apple beats estimates" "2024-01-01" sampleEntry)
      (Json.str "AAPL")) "Apple beats estimates" "2024-01-01" = 1 :=
  ⟨rfl, rfl,
   append_if_new_idempotent_dedup.2.2 [] (Json.str "AAPL")
     "Apple beats estimates" "2024-01-01" sampleEntry sampleEntry
     append_if_new_idempotent_dedup.1 rfl rfl rfl rfl⟩

/-- C2: with a provider adapter that fails on every attempt and
`max_attempts ≥ 1`, `call_llm` makes exactly `max_attempts` provider
calls, sleeps `2^i` time units after failed attempt `i` for
`i = 0 … max_attempts - 2` (delays 1, 2, 4, …; no sleep after the final
attempt), and returns `None` rather than letting the failure escape. -/
theorem call_llm_retry_exhaustion (provider : ℕ → Option String) (m : ℕ)
    (hm : 1 ≤ m) (hfail : ∀ i, provider i = none) :
    call_llm provider m = (none, m, (List.range (m - 1)).map (2 ^ ·)) := by
  unfold call_llm
  rw [call_llm_go_fail provider m hfail m 0 (by omega) hm]
  rw [List.range_eq_range']

/-- Witness for C2 at `max_attempts = 3` with an always-failing provider:
three calls, sleeps 1 then 2, result `None`. -/
theorem call_llm_retry_exhaustion_witness :
    1 ≤ 3 ∧ call_llm (fun _ => none) 3 = (none, 3, [1, 2]) := by
  refine ⟨by decide, ?_⟩
  rw [call_llm_retry_exhaustion (fun _ => none) 3 (by decide) (fun i => rfl)]
  rfl

/-- C3: the normalizer's defaulting distinguishes its two failure
grades: a `None` response, and every response whose cleaned text fails
structured parse, yield the zero-value result (empty sequences,
sentiment "neutral", score 0.0, confidence 0.0) with no error escaping;
whereas every response that parses to a record merely omitting the
`confidence` field (and whose `sentiment_score` coerces) gets
confidence 0.5 (`Rat.divInt 1 2 = 1/2`). -/
theorem normalizer_failure_grades :
    analyze_news_with_llm none
      = .ok { companies := .arr [], tickers := .arr [],
              sentiment := .str "neutral", sentiment_score := 0,
              key_themes := .arr [], confidence := 0 } ∧
    (∀ r : String, json_loads (cleanResponse r) = none →
      analyze_news_with_llm (some r)
        = .ok { companies := .arr [], tickers := .arr [],
                sentiment := .str "neutral", sentiment_score := 0,
                key_themes := .arr [], confidence := 0 }) ∧
    (∀ (r : String) (fields : List (String × Json)) (q : ℚ),
      json_loads (cleanResponse r) = some (.obj fields) →
      Json.getField fields "confidence" = none →
      pyFloat ((Json.getField fields "sentiment_score").getD (.num 0)) = .ok q →
      (analyze_news_with_llm (some r)).map AnalysisResult.confidence
        = .ok (Rat.divInt 1 2)) ∧
    Rat.divInt 1 2 = (1 / 2 : ℚ) := by
  refine ⟨rfl, ?_, ?_, by norm_num [Rat.divInt_eq_div]⟩
  · intro r hp
    by_cases hr : r = ""
    · subst hr; rfl
    · simp only [analyze_news_with_llm]
      rw [if_neg hr]
      simp only [hp]
      rfl
  · intro r fields q hp hconf hscore
    by_cases hr : r = ""
    · rw [hr, show json_loads (cleanResponse "") = none from rfl] at hp
      exact Option.noConfusion hp
    · simp only [analyze_news_with_llm]
      rw [if_neg hr]
      simp only [hp]
      rw [hscore, exc_bind_ok, hconf]
      rfl

/-- Witness for C3 at the claim's example inputs: `"not json"` fails
parse and yields the zero-value result; a record carrying only
`sentiment` has no `confidence` field and gets confidence 0.5. -/
theorem normalizer_failure_grades_witness :
    json_loads (cleanResponse "not json") = none ∧
    analyze_news_with_llm (some "not json")
      = .ok { companies := .arr [], tickers := .arr [],
              sentiment := .str "neutral", sentiment_score := 0,
              key_themes := .arr [], confidence := 0 } ∧
    json_loads (cleanResponse "\x7b\"sentiment\": \"positive\"\x7d")
      = some (.obj [("sentiment", Json.str "positive")]) ∧
    (analyze_news_with_llm (some "\x7b\"sentiment\": \"positive\"\x7d")).map
        AnalysisResult.confidence = .ok (Rat.divInt 1 2) :=
  ⟨rfl, normalizer_failure_grades.2.1 "not json" rfl, rfl,
   normalizer_failure_grades.2.2.1 "\x7b\"sentiment\": \"positive\"\x7d"
     [("sentiment", Json.str "positive")] 0 rfl rfl rfl⟩

/-- C4 counterexample: a response that parses as a record but whose
`sentiment_score` is present and not numeric is NOT treated as 0.0 — the
float coercion error escapes the normalizer instead of an
`AnalysisResult` being returned. -/
theorem nonnumeric_score_raises :
    analyze_news_with_llm (some "\x7b\"sentiment_score\": \"abc\"\x7d")
      = .error "ValueError: could not convert string to float" := rfl

/-- C4 amended: when the cleaned response parses to a record whose
present `sentiment_score` fails float coercion, the normalizer
propagates that error (the per-row failure is not absorbed there). -/
theorem nonnumeric_score_propagates (r : String) (fields : List (String × Json))
    (msg : String) (hr : r ≠ "")
    (hp : json_loads (cleanResponse r) = some (.obj fields))
    (hf : pyFloat ((Json.getField fields "sentiment_score").getD (.num 0))
          = .error msg) :
    analyze_news_with_llm (some r) = .error msg := by
  simp only [analyze_news_with_llm]
  rw [if_neg hr]
  simp only [hp]
  rw [hf, exc_bind_err]

/-- Witness for C4's amended theorem at the concrete response
`{"sentiment_score": "abc"}`. -/
theorem nonnumeric_score_propagates_witness :
    ("\x7b\"sentiment_score\": \"abc\"\x7d" ≠ "") ∧
    analyze_news_with_llm (some "\x7b\"sentiment_score\": \"abc\"\x7d")
      = .error "ValueError: could not convert string to float" :=
  ⟨by decide,
   nonnumeric_score_propagates "\x7b\"sentiment_score\": \"abc\"\x7d"
     [("sentiment_score", .str "abc")]
     "ValueError: could not convert string to float" (by decide) rfl rfl⟩

/-- C5: a row whose analysis has confidence ≤ 0.3 (`Rat.divInt 3 10`)
produces no entry and leaves the store untouched; the row still counts
in the processed counter but not in the successful counter. -/
theorem low_confidence_row_skipped (headline time_str description now : String)
    (analysis : AnalysisResult) (store : TickerStore) (p s : ℕ)
    (h : analysis.confidence ≤ Rat.divInt 3 10) :
    processRow headline time_str description now analysis store p s
      = .ok (store, p + 1, s) := by
  unfold processRow
  rw [if_neg (not_lt.2 h)]

/-- Witness for C5 at confidence exactly 0.3: store unchanged, processed
counter advanced, successful counter not. -/
theorem low_confidence_row_skipped_witness :
    sampleLowAnalysis.confidence ≤ Rat.divInt 3 10 ∧
    processRow "h" "t" "d" "now" sampleLowAnalysis [] 0 0 = .ok ([], 1, 0) :=
  ⟨by decide,
   low_confidence_row_skipped "h" "t" "d" "now" sampleLowAnalysis [] 0 0 (by decide)⟩

/-- C6 counterexample: constructing the parser with the unrecognized
backend identifier "gemini" succeeds — `__init__` raises nothing and
merely leaves the provider configuration unassigned, so construction is
not fail-fast. -/
theorem unrecognized_provider_constructs :
    LLMNewsParser.init none "gemini"
      = .ok { api_key := none, model_provider := "gemini",
              output_dir := "company_news", config := none } := rfl

/-- C6 amended: construction succeeds for every backend identifier; an
identifier outside the recognized set ({openai, anthropic, ollama,
huggingface}, after lower-casing) leaves the configuration unassigned
(`none`), deferring any failure to call time. -/
theorem construction_never_fails (api_key : Option String) (provider : String)
    (h : pyLower provider
         ∉ (["openai", "anthropic", "ollama", "huggingface"] : List String)) :
    LLMNewsParser.init api_key provider
      = .ok { api_key := api_key, model_provider := pyLower provider,
              output_dir := "company_news", config := none } := by
  unfold LLMNewsParser.init setup_llm_config
  simp only [List.mem_cons, List.not_mem_nil, or_false, not_or] at h
  rw [if_neg h.1, if_neg h.2.1, if_neg h.2.2.1, if_neg h.2.2.2]

/-- Witness for C6's amended theorem at provider "Gemini". -/
theorem construction_never_fails_witness :
    pyLower "Gemini"
      ∉ (["openai", "anthropic", "ollama", "huggingface"] : List String) ∧
    LLMNewsParser.init (some "key") "Gemini"
      = .ok { api_key := some "key", model_provider := pyLower "Gemini",
              output_dir := "company_news", config := none } :=
  ⟨by decide, construction_never_fails (some "key") "Gemini" (by decide)⟩

/-- C7: a response wrapped in one layer of code fences with a `json`
language hint is stripped and parsed: the literal fenced payload yields
sentiment "positive" and tickers ["AAPL"]. -/
theorem fence_stripped_response_parses :
    (analyze_news_with_llm (some "```json\n\x7b\"sentiment\":\"positive\",\"sentiment_score\":0.5,\"confidence\":0.9,\"companies\":[\"Apple Inc.\"],\"tickers\":[\"AAPL\"],\"key_themes\":[\"earnings\"]\x7d\n```")).map
        AnalysisResult.sentiment = .ok (.str "positive") ∧
    (analyze_news_with_llm (some "```json\n\x7b\"sentiment\":\"positive\",\"sentiment_score\":0.5,\"confidence\":0.9,\"companies\":[\"Apple Inc.\"],\"tickers\":[\"AAPL\"],\"key_themes\":[\"earnings\"]\x7d\n```")).map
        AnalysisResult.tickers = .ok (.arr [.str "AAPL"]) :=
  ⟨rfl, rfl⟩

/-- C8 counterexample: for the ticker "aapl" the persisted file name is
"company_news/aapl.json" — the ticker spelled verbatim — not the
uppercase ticker the claim requires. -/
theorem ticker_filename_not_uppercased :
    (save_ticker_file_call "aapl" []).filename
      ≠ os_path_join "company_news" (pyUpper "aapl" ++ ".json") := by decide

/-- C8 amended: the collection for a ticker is written to
`company_news/<ticker>.json` with the ticker spelled verbatim (uppercase
only if the ticker itself is), human-readable indent 2 and
`ensure_ascii=False` (non-ASCII preserved). -/
theorem save_ticker_file_layout (ticker : String) (data : List NewsEntry)
    (h : pyStartsWith ticker "/" = false) :
    save_ticker_file_call ticker data
      = { filename := "company_news/" ++ ticker ++ ".json", indent := some 2,
          ensure_ascii := false, content := data } := by
  have hj : pyStartsWith (ticker ++ ".json") "/" = false := by
    unfold pyStartsWith at h ⊢
    have htl : (ticker ++ ".json").toList = ticker.toList ++ ".json".toList := by
      simp [String.toList]
    rw [htl]
    cases hc : ticker.toList with
    | nil => decide
    | cons c cs =>
      rw [hc] at h
      simp only [List.cons_append]
      have hsingle : ∀ (b : Char) (l : List Char),
          List.isPrefixOf ("/".toList) (b :: l) = (('/' : Char) == b) := by
        intro b l
        simp [List.isPrefixOf]
      rw [hsingle] at h ⊢
      exact h
  unfold save_ticker_file_call os_path_join
  rw [hj]
  simp only [Bool.false_eq_true, if_false]
  congr 1

/-- Witness for C8's amended theorem at ticker "AAPL". -/
theorem save_ticker_file_layout_witness :
    pyStartsWith "AAPL" "/" = false ∧
    save_ticker_file_call "AAPL" []
      = { filename := "company_news/" ++ "AAPL" ++ ".json", indent := some 2,
          ensure_ascii := false, content := [] } :=
  ⟨by decide, save_ticker_file_layout "AAPL" [] (by decide)⟩

/-- C9: every store update of `parse_csv_file` keeps the invariant that
each entry filed under ticker T carries T in its `ticker` field, and
every entry newly persisted for a row carries that row's headline,
timestamp and description verbatim, with `full_text` the space-joined,
trimmed concatenation of headline and description. -/
theorem processRow_entry_fields (headline time_str description now : String)
    (analysis : AnalysisResult) (store store' : TickerStore) (p s p2 s2 : ℕ)
    (hok : processRow headline time_str description now analysis store p s
           = .ok (store', p2, s2))
    (hinv : TickerInv store) :
    TickerInv store' ∧
    ∀ tk e, e ∈ load_existing_data store' tk →
      e ∉ load_existing_data store tk →
      e.headline = headline ∧ e.timestamp = time_str ∧
      e.description = description ∧ e.ticker = tk ∧
      e.full_text = pyStrip (headline ++ " " ++ description) := by
  unfold processRow at hok
  by_cases hc : analysis.confidence > Rat.divInt 3 10
  · rw [if_pos hc] at hok
    rcases hit : pyIter analysis.tickers with msg | ts
    · rw [hit, exc_bind_err] at hok
      simp at hok
    · rw [hit, exc_bind_ok] at hok
      rcases hfo : fanOut headline time_str description now analysis 0 ts store
        with msg | st
      · rw [hfo, exc_bind_err] at hok
        simp at hok
      · rw [hfo, exc_bind_ok] at hok
        simp only [Except.ok.injEq, Prod.mk.injEq] at hok
        obtain ⟨h1, _, _⟩ := hok
        subst h1
        have hmem := fanOut_mem headline time_str description now analysis ts 0
          store st hfo
        constructor
        · intro tk e he
          rcases hmem tk e he with hin | hf
          · exact hinv tk e hin
          · exact hf.2.2.2.1
        · intro tk e he hnot
          rcases hmem tk e he with hin | hf
          · exact absurd hin hnot
          · exact hf
  · rw [if_neg hc] at hok
    simp only [Except.ok.injEq, Prod.mk.injEq] at hok
    obtain ⟨h1, _, _⟩ := hok
    subst h1
    exact ⟨hinv, fun tk e he hnot => absurd he hnot⟩

/-- Witness for C9: one concrete row fanned out into an empty store
satisfies the per-file ticker invariant. -/
theorem processRow_entry_fields_witness :
    processRow "Apple beats estimates" "2024-01-01" "Strong quarter" "now"
        sampleAnalysis [] 0 0
      = .ok ([(Json.str "AAPL",
              [mkNewsEntry "2024-01-01" "Apple beats estimates" "Strong quarter"
                 sampleAnalysis (Json.str "Apple Inc.") (Json.str "AAPL") "now"])],
             1, 1) ∧
    TickerInv [(Json.str "AAPL",
      [mkNewsEntry "2024-01-01" "Apple beats estimates" "Strong quarter"
         sampleAnalysis (Json.str "Apple Inc.") (Json.str "AAPL") "now"])] :=
  ⟨rfl,
   (processRow_entry_fields "Apple beats estimates" "2024-01-01" "Strong quarter"
     "now" sampleAnalysis [] _ 0 0 1 1 rfl
     (fun tk e he => by simp [load_existing_data, List.find?] at he)).1⟩

/-- C10: whenever the stripped response opens with a code fence, the
cleaning step removes the final three characters of the text
unconditionally — also when no closing fence exists — and a fence-opened
but unclosed response therefore loses the tail of its payload, fails to
parse, and yields the zero-value result. -/
theorem fence_strip_removes_last_three :
    (∀ r : String, pyStartsWith (pyStrip r) "```json" = true →
      (cleanResponse r).toList
        = ((pyStrip r).toList.drop 7).take
            (((pyStrip r).toList.drop 7).length - 3)) ∧
    (∀ r : String, pyStartsWith (pyStrip r) "```json" = false →
      pyStartsWith (pyStrip r) "```" = true →
      (cleanResponse r).toList
        = ((pyStrip r).toList.drop 3).take
            (((pyStrip r).toList.drop 3).length - 3)) ∧
    analyze_news_with_llm (some "```json\n\x7b\"sentiment\": \"positive\"")
      = .ok zeroAnalysis := by
  refine ⟨?_, ?_, rfl⟩
  · intro r h
    simp only [cleanResponse]
    rw [if_pos h, pySliceTail_toList]
  · intro r h1 h2
    simp only [cleanResponse]
    rw [h1]
    simp only [Bool.false_eq_true, if_false]
    rw [if_pos h2, pySliceTail_toList]

/-- Witness for C10 on a fence-opened, unclosed response: the cleaning
step drops the last three characters of the remaining payload. -/
theorem fence_strip_removes_last_three_witness :
    pyStartsWith (pyStrip "```json\n\x7b\"sentiment\": \"positive\"") "```json" = true ∧
    (cleanResponse "```json\n\x7b\"sentiment\": \"positive\"").toList
      = ((pyStrip "```json\n\x7b\"sentiment\": \"positive\"").toList.drop 7).take
          (((pyStrip "```json\n\x7b\"sentiment\": \"positive\"").toList.drop 7).length - 3) :=
  ⟨rfl, fence_strip_removes_last_three.1 "```json\n\x7b\"sentiment\": \"positive\"" rfl⟩
